import Mathlib

/-!
Verification development for the link-summoner repository (main.go, the
conversational-resolver version of the program: `LinkInfo` with `Messages`
and `RejectedURLs`, `processLink`, `verifyURL`,
`updateInitialPromptWithRejectedURL`, `applyChanges`).

Modelling conventions:
* Go strings are modelled as `List Char` (`Str`); byte positions of the
  original program become element positions, used consistently by both the
  extractor and the patcher, so all offset arithmetic is preserved.
* Go `float64` confidence values are modelled as `ℚ`.  The constants the
  program compares against (0, 0.8, 1.0) and every confidence a claim
  exercises are exactly representable, and no `float64` lies strictly
  between the rational 4/5 and the `float64` literal `0.8`, so `conf ≥ 4/5`
  decides exactly as the program's `confidence >= 0.8`.
* Loops are written as fuel-indexed structural recursions with fuel equal
  to the quantity that bounds the Go loop, so every definition evaluates
  inside the kernel.
-/

namespace LinkSummoner

/-- Go strings, as lists of symbols. -/
abbrev Str := List Char

/-- Shorthand turning a Lean string literal into the `Str` model. -/
def str (s : String) : Str := s.toList

/-- The whitespace test used by the model of `strings.TrimSpace` (the inputs
exercised here are ASCII, where Go's definition agrees). -/
def isSpace (c : Char) : Bool := c = ' ' || c = '\t' || c = '\n' || c = '\r'

/-- Model of Go `strings.TrimSpace`. -/
def trimSpace (l : Str) : Str :=
  ((l.dropWhile isSpace).reverse.dropWhile isSpace).reverse

/-- Model of Go `strings.ToLower` (ASCII; the program only compares the
result against the ASCII literals "y" and "v"). -/
def toLowerL (l : Str) : Str := l.map Char.toLower

/-- Model of Go `strings.Join(xs, ", ")`. -/
def joinComma : List Str → Str
  | [] => []
  | [u] => u
  | u :: us => u ++ str ", " ++ joinComma us

/-- Model of Go `strings.Split(s, "\n")`. -/
def splitNL : Str → List Str
  | [] => [[]]
  | c :: rest =>
    if c = '\n' then [] :: splitNL rest
    else
      match splitNL rest with
      | [] => [[c]]
      | l :: ls => (c :: l) :: ls

/-- Model of Go `strings.Contains(hay, needle)`. -/
def containsSub (needle : Str) : Str → Bool
  | [] => needle.isEmpty
  | c :: rest => needle.isPrefixOf (c :: rest) || containsSub needle rest

/-- `isURL` of main.go: a pure prefix test for the three URL schemes. -/
def isURL (s : Str) : Bool :=
  (str "http://").isPrefixOf s || (str "https://").isPrefixOf s ||
    (str "ftp://").isPrefixOf s

/-- One chat message of the conversation transcript
(`openai.ChatCompletionMessage`: a role tag and a content string). -/
structure ChatMessage where
  role : Str
  content : Str
  deriving DecidableEq, Repr, Inhabited

/-- `openai.ChatMessageRoleUser`. -/
def roleUser : Str := str "user"

/-- `openai.ChatMessageRoleAssistant`. -/
def roleAssistant : Str := str "assistant"

/-- `LinkInfo` of main.go (the conversational version: `Messages` and
`RejectedURLs` fields present). -/
structure LinkInfo where
  text : Str
  description : Str
  url : Str
  confidence : ℚ
  sentence : Str
  startPos : Nat
  endPos : Nat
  settled : Bool
  messages : List ChatMessage
  rejectedURLs : List Str
  deriving DecidableEq, Repr

instance : Inhabited LinkInfo :=
  ⟨{ text := [], description := [], url := [], confidence := 0, sentence := []
     startPos := 0, endPos := 0, settled := false, messages := []
     rejectedURLs := [] }⟩

/-- Sentence terminators of `extractSentence`. -/
def isSentTerm (c : Char) : Bool := c = '.' || c = '!' || c = '?' || c = '\n'

/-- The backward scan of `extractSentence`: from `start = linkPos`, step
back while `start > 0` and `text[start-1]` is no terminator. -/
def sentStart (text : Str) : Nat → Nat
  | 0 => 0
  | k + 1 => if isSentTerm (text.getD k ' ') then k + 1 else sentStart text k

/-- The forward scan of `extractSentence`: from `end = linkPos`, step
forward while `end < len(text)` and `text[end]` is no terminator.  The
fuel (`text.length - linkPos` at the call site) bounds the Go loop. -/
def sentEndAux (text : Str) : Nat → Nat → Nat
  | 0, e => e
  | fuel + 1, e =>
    if e < text.length && !isSentTerm (text.getD e ' ') then
      sentEndAux text fuel (e + 1)
    else e

/-- `extractSentence` of main.go. -/
def extractSentence (text : Str) (linkPos : Nat) : Str :=
  let s := sentStart text linkPos
  let e0 := sentEndAux text (text.length - linkPos) linkPos
  let e := if e0 < text.length then e0 + 1 else e0
  trimSpace ((text.drop s).take (e - s))

/-- One attempt of the regular expression `\[([^\]]+)\]\(([^)]+)\)` at the
head of `l`: a literal `[`, a non-empty maximal run of non-`]` characters
(greedy matching cannot retreat, since any shorter run is followed by a
non-`]` character), `](`, a non-empty maximal run of non-`)` characters,
and `)`.  Returns the two capture groups. -/
def matchLinkAt : Str → Option (Str × Str)
  | '[' :: rest =>
    let lab := rest.takeWhile (fun c => c ≠ ']')
    if lab.isEmpty then none
    else
      match rest.drop lab.length with
      | ']' :: '(' :: rest2 =>
        let dsc := rest2.takeWhile (fun c => c ≠ ')')
        if dsc.isEmpty then none
        else
          match rest2.drop dsc.length with
          | ')' :: _ => some (lab, dsc)
          | _ => none
      | _ => none
  | _ => none

/-- The scan of `FindAllStringSubmatch`/`FindAllStringIndex`: leftmost
matches, non-overlapping, the search resuming right after each match.
Elements are `(start, end, label, description)`.  The fuel (`text.length`
at the call site) bounds the scan, which consumes at least one character
per step. -/
def findLinksAux : Nat → Str → Nat → List (Nat × Nat × Str × Str)
  | 0, _, _ => []
  | _ + 1, [], _ => []
  | fuel + 1, c :: rest, pos =>
    match matchLinkAt (c :: rest) with
    | some (lab, dsc) =>
      let len := lab.length + dsc.length + 4
      (pos, pos + len, lab, dsc) ::
        findLinksAux fuel (rest.drop (len - 1)) (pos + len)
    | none => findLinksAux fuel rest (pos + 1)

/-- `extractLinks` of main.go: every pattern occurrence becomes a
`LinkInfo` with the capture groups, the match span and the enclosing
sentence; the remaining fields take Go zero values. -/
def extractLinks (text : Str) : List LinkInfo :=
  (findLinksAux text.length text 0).map fun m =>
    { text := m.2.2.1, description := m.2.2.2, url := [], confidence := 0
      sentence := extractSentence text m.1, startPos := m.1, endPos := m.2.1
      settled := false, messages := [], rejectedURLs := [] }

/-- The rendered markdown form `fmt.Sprintf("[%s](%s)", text, target)`. -/
def renderLink (text target : Str) : Str :=
  '[' :: text ++ ']' :: '(' :: target ++ [')']

/-- One comparison-and-swap of the nested sorting loops of `applyChanges`:
when `links[i].StartPos < links[j].StartPos` the two entries are swapped
(the sort places larger start positions first). -/
def sortSwap (links : List LinkInfo) (i j : Nat) : List LinkInfo :=
  if (links.getD i default).startPos < (links.getD j default).startPos then
    (links.set i (links.getD j default)).set j (links.getD i default)
  else links

/-- The inner loop `for j := i + 1; j < len(links); j++` of the sort.  Fuel
`links.length - j` bounds it; the list length never changes. -/
def sortInner (i : Nat) : Nat → List LinkInfo → Nat → List LinkInfo
  | 0, links, _ => links
  | fuel + 1, links, j =>
    if j < links.length then sortInner i fuel (sortSwap links i j) (j + 1)
    else links

/-- The outer loop `for i := 0; i < len(links); i++` of the sort. -/
def sortOuter : Nat → List LinkInfo → Nat → List LinkInfo
  | 0, links, _ => links
  | fuel + 1, links, i =>
    if i < links.length then
      sortOuter fuel (sortInner i (links.length - (i + 1)) links (i + 1)) (i + 1)
    else links

/-- The descending-position sort of `applyChanges` (a selection sort over a
copied slice). -/
def sortLinksDesc (links : List LinkInfo) : List LinkInfo :=
  sortOuter links.length links 0

/-- The replacement loop `for _, link := range sortedLinks` of
`applyChanges`.  A settled link with a non-empty URL has its current span
`[StartPos, EndPos)` of `result` replaced by the newly rendered link, and
then every entry of the slice whose `StartPos` is smaller than the just
processed one is shifted by the signed length difference (the Go loop
mutates the slice it is ranging over, so later iterations observe the
shifted positions).  Fuel `links.length - i` bounds the loop; positions
are natural numbers, matching the non-negative values arising in every
run considered here. -/
def applyLoop : Nat → Str → List LinkInfo → Nat → Str
  | 0, result, _, _ => result
  | fuel + 1, result, links, i =>
    match links.getD i default with
    | link =>
      if link.settled && link.url ≠ [] then
        let oldLink := renderLink link.text link.description
        let newLink := renderLink link.text link.url
        let result' := result.take link.startPos ++ newLink ++ result.drop link.endPos
        let sizeDiff : Int := (newLink.length : Int) - (oldLink.length : Int)
        let links' := links.map fun l =>
          if l.startPos < link.startPos then
            { l with startPos := ((l.startPos : Int) + sizeDiff).toNat
                     endPos := ((l.endPos : Int) + sizeDiff).toNat }
          else l
        applyLoop fuel result' links' (i + 1)
      else applyLoop fuel result links (i + 1)

/-- `applyChanges` of main.go. -/
def applyChanges (text : Str) (links : List LinkInfo) : Str :=
  let sorted := sortLinksDesc links
  applyLoop sorted.length text sorted 0

/-- The per-candidate dispatch of `ProcessFile`: a candidate whose
description is already a URL is settled on the spot (`URL := Description`,
`Settled := true`) and `processLink` — abstracted here as `resolver` — is
never called; otherwise the candidate is handed to the resolution loop. -/
def processCandidate (resolver : LinkInfo → LinkInfo) (link : LinkInfo) :
    LinkInfo :=
  if isURL link.description then
    { link with url := link.description, settled := true }
  else resolver link

/-- The clause prefix `"\n\nIMPORTANT: Do NOT suggest any of these
previously rejected URLs: "` (the literal part of the rewrite pattern, up
to and including the space before `%s`). -/
def rejClauseHead : Str :=
  str "\n\nIMPORTANT: Do NOT suggest any of these previously rejected URLs: "

/-- The marker the `strings.Contains` test of
`updateInitialPromptWithRejectedURL` looks for. -/
def rejMarker : Str :=
  str "IMPORTANT: Do NOT suggest any of these previously rejected URLs:"

/-- `rejectedURLsText` of `findURLWithConversation` and
`updateInitialPromptWithRejectedURL`. -/
def rejClause (urls : List Str) : Str := rejClauseHead ++ joinComma urls

/-- The template of the initial prompt of `findURLWithConversation`,
without the optional rejected-URLs clause. -/
def basePrompt (sentence description : Str) : Str :=
  str "Given this context: \"" ++ sentence ++
  str "\"\n\nFind the most appropriate URL for the description: \"" ++
  description ++
  str "\"\n\nProvide your response in exactly this format:\nURL: [the URL you found]\nCONFIDENCE: [a number between 0.0 and 1.0]\nREASONING: [brief explanation of why you chose this URL and how confident you are]\n\nBe conservative with confidence scores. Only use 0.8+ if you're very sure this is the exact resource the user wants.\n\nIMPORTANT: If the user provides feedback about a URL being wrong or broken, you MUST provide a completely different URL. Do not repeat URLs that have been rejected."

/-- The full initial prompt: the template plus, when `rejectedURLs` is
non-empty, the rejected-URLs clause. -/
def initialPrompt (sentence description : Str) (rejectedURLs : List Str) :
    Str :=
  basePrompt sentence description ++
    (if rejectedURLs.isEmpty then [] else rejClause rejectedURLs)

/-- One step of Go `regexp.ReplaceAllString` for the pattern
`\n\nIMPORTANT: Do NOT suggest any of these previously rejected URLs: [^\n]*`:
scan left to right; at each occurrence of the literal head emit `rep`,
consume the head and the following maximal newline-free run, and resume
after it.  Fuel (the scanned string's length) bounds the scan, which
consumes at least one character per step. -/
def replaceClauseAux (rep : Str) : Nat → Str → Str
  | _, [] => []
  | 0, s => s
  | fuel + 1, c :: rest =>
    if rejClauseHead.isPrefixOf (c :: rest) then
      rep ++ replaceClauseAux rep fuel
        (((c :: rest).drop rejClauseHead.length).dropWhile (fun x => x ≠ '\n'))
    else c :: replaceClauseAux rep fuel rest

/-- `updateInitialPromptWithRejectedURL` of main.go: when the transcript
is non-empty and its first message is the user seed, the rejected-URLs
clause of that first message is replaced (when the marker is present) or
appended (otherwise), in place.  The clause is rebuilt from the link's
current `RejectedURLs`; the `rejectedURL` argument of the Go function is
not otherwise used, so it is omitted here. -/
def updateInitialPromptWithRejectedURL (link : LinkInfo) : LinkInfo :=
  match link.messages with
  | [] => link
  | m0 :: rest =>
    if m0.role = roleUser then
      let rejText := rejClause link.rejectedURLs
      let newContent :=
        if containsSub rejMarker m0.content then
          replaceClauseAux rejText m0.content.length m0.content
        else m0.content ++ rejText
      { link with messages := { m0 with content := newContent } :: rest }
    else link

/-- `isURLRejected` of main.go. -/
def isURLRejected (url : Str) (rejectedURLs : List Str) : Bool :=
  rejectedURLs.any (fun r => url = r)

/-- `verifyURL` of main.go, over the outcome of the HTTP probe: `none`
models a transport failure of both the HEAD request and the GET fallback
(reported as unreachable with status 0); `some status` models a response
with that status code, accessible iff the status is 2xx or 3xx. -/
def verifyURL : Option Int → Bool × Int
  | none => (false, 0)
  | some status => (200 ≤ status && status < 400, status)

/-- The `URL:` field scan of `parseAIResponse`: every line is trimmed and,
when it starts with `URL:`, the trimmed remainder overwrites the result
(so the last such line wins); the result is empty when no line matched. -/
def parseURLField (content : Str) : Str :=
  (splitNL content).foldl
    (fun acc line =>
      let t := trimSpace line
      if (str "URL:").isPrefixOf t then trimSpace (t.drop 4) else acc)
    []

/-- The `REASONING:` field scan of `parseAIResponse`, analogous. -/
def parseReasoningField (content : Str) : Str :=
  (splitNL content).foldl
    (fun acc line =>
      let t := trimSpace line
      if (str "REASONING:").isPrefixOf t then trimSpace (t.drop 10) else acc)
    []

/-- The transcript message of the rejection short-circuit of
`processLink`. -/
def alreadyRejectedMsg (url : Str) : Str :=
  str "You already suggested " ++ url ++
    str " and I rejected it. Please provide a different URL."

/-- The transcript message of the verification-failure branch of
`processLink`, citing the failing status and the updated rejected list. -/
def notAccessibleMsg (url : Str) (status : Int) (rejectedURLs : List Str) :
    Str :=
  str "The URL " ++ url ++ str " is not accessible (HTTP " ++
    (toString status).toList ++
    str "). Please provide a working URL that is NOT any of these rejected URLs: " ++
    joinComma rejectedURLs

/-- The transcript message of the additional-context branch of
`processLink`. -/
def contextMsg (context : Str) (rejectedURLs : List Str) : Str :=
  context ++ str " (Note: Do NOT suggest any of these rejected URLs: " ++
    joinComma rejectedURLs ++ str ")"

/-- Control location inside `processLink`'s loops.  `needSuggestion` is
the top of the outer `for !link.Settled` loop; `retryPrompt` is the
would-you-like-to-retry question after a failed or unparsable service
call; `awaitVerify` is the point between parsing a suggestion and the
reachability probe; `decide` is the inner user-interaction loop holding
the current suggestion; `done` is `return nil`. -/
inductive Phase where
  | needSuggestion
  | retryPrompt
  | awaitVerify (url : Str) (confidence : ℚ) (reasoning : Str)
  | decide (url : Str) (confidence : ℚ) (reasoning : Str)
  | done
  deriving DecidableEq, Repr

/-- The state of one candidate's resolution loop. -/
structure RState where
  link : LinkInfo
  phase : Phase
  deriving DecidableEq, Repr

/-- The environment inputs the loop consumes, one per blocking call.
`aiReply` carries the raw reply text and the `float64` the program's
`fmt.Sscanf` reads off the `CONFIDENCE:` line (numeric text-to-float
parsing is the one abstracted step; every claim quantifies over the
value).  `verifyResult` carries the HTTP probe outcome as in `verifyURL`.
`userInput` carries one line read from stdin, plus the follow-up line the
additional-context sub-prompt reads when the first line is empty. -/
inductive REvent where
  | aiCallError
  | aiReply (content : Str) (confidence : ℚ)
  | verifyResult (outcome : Option Int)
  | userInput (line followUp : Str)
  deriving DecidableEq, Repr

/-- `findURLWithConversation`'s seeding: when the transcript is empty it
receives the initial prompt built from the sentence context, the
description and the current rejected list. -/
def seedIfEmpty (link : LinkInfo) : LinkInfo :=
  if link.messages.isEmpty then
    { link with messages :=
        [⟨roleUser, initialPrompt link.sentence link.description
            link.rejectedURLs⟩] }
  else link

/-- Appends one message to the transcript. -/
def appendMsg (link : LinkInfo) (role content : Str) : LinkInfo :=
  { link with messages := link.messages ++ [⟨role, content⟩] }

/-- The top of the outer loop on a service reply: `findURLWithConversation`
seeds the transcript if needed and appends the assistant reply; a reply
without a parsable URL is surfaced like a call failure (retry offer);
a URL already in `RejectedURLs` triggers the automatic short-circuit
(feedback message appended, new suggestion requested, no user
interaction); otherwise the suggestion proceeds to verification. -/
def stepSuggestion (link : LinkInfo) (content : Str) (confidence : ℚ) :
    RState :=
  let l1 := appendMsg (seedIfEmpty link) roleAssistant content
  let url := parseURLField content
  if url = [] then { link := l1, phase := .retryPrompt }
  else if isURLRejected url l1.rejectedURLs then
    { link := appendMsg l1 roleUser (alreadyRejectedMsg url)
      phase := .needSuggestion }
  else
    { link := l1
      phase := .awaitVerify url confidence (parseReasoningField content) }

/-- The verification branch of `processLink`: an inaccessible URL is added
to `RejectedURLs`, the seed prompt is rewritten, a message citing the
status is appended and the outer loop continues; an accessible URL is
presented to the user. -/
def stepVerify (link : LinkInfo) (url : Str) (confidence : ℚ)
    (reasoning : Str) (outcome : Option Int) : RState :=
  let v := verifyURL outcome
  if v.1 then { link := link, phase := .decide url confidence reasoning }
  else
    let l1 := { link with rejectedURLs := link.rejectedURLs ++ [url] }
    let l2 := updateInitialPromptWithRejectedURL l1
    let l3 := appendMsg l2 roleUser (notAccessibleMsg url v.2 l2.rejectedURLs)
    { link := l3, phase := .needSuggestion }

/-- The inner user-interaction loop of `processLink` on one input line.
`y` settles on the suggestion only at confidence at least 0.8 (below the
floor the `break` leaves the `switch` statement only, so the inner loop
re-prompts with the same suggestion, unchanged); `v` opens the browser
and changes nothing; a pasted URL settles immediately at confidence 1.0;
anything else adds the suggestion to `RejectedURLs`, rewrites the seed
prompt and appends the context message (for an empty line, the context
is requested by a follow-up prompt and appended only when non-empty) —
after which the final `break` again leaves only the `switch`, so the
inner loop keeps the same suggestion. -/
def stepDecide (link : LinkInfo) (url : Str) (confidence : ℚ)
    (reasoning : Str) (line followUp : Str) : RState :=
  let response := trimSpace line
  let lower := toLowerL response
  if lower = str "y" then
    if confidence ≥ 4/5 then
      { link :=
          { link with url := url, confidence := confidence, settled := true },
        phase := .done }
    else { link := link, phase := .decide url confidence reasoning }
  else if lower = str "v" then
    { link := link, phase := .decide url confidence reasoning }
  else if isURL response then
    { link := { link with url := response, confidence := 1, settled := true }
      phase := .done }
  else
    let l1 := { link with rejectedURLs := link.rejectedURLs ++ [url] }
    let l2 := updateInitialPromptWithRejectedURL l1
    let l3 :=
      if response ≠ [] then
        appendMsg l2 roleUser (contextMsg response l2.rejectedURLs)
      else
        let extra := trimSpace followUp
        if extra ≠ [] then
          appendMsg l2 roleUser (contextMsg extra l2.rejectedURLs)
        else l2
    { link := l3, phase := .decide url confidence reasoning }

/-- One transition of the resolution loop; events that cannot occur at the
current control location leave the state unchanged. -/
def stepEv (s : RState) (e : REvent) : RState :=
  match s.phase, e with
  | .needSuggestion, .aiCallError =>
    { link := seedIfEmpty s.link, phase := .retryPrompt }
  | .needSuggestion, .aiReply content confidence =>
    stepSuggestion s.link content confidence
  | .awaitVerify url confidence reasoning, .verifyResult outcome =>
    stepVerify s.link url confidence reasoning outcome
  | .retryPrompt, .userInput line _ =>
    if toLowerL (trimSpace line) ≠ str "y" then { s with phase := .done }
    else { s with phase := .needSuggestion }
  | .decide url confidence reasoning, .userInput line followUp =>
    stepDecide s.link url confidence reasoning line followUp
  | _, _ => s

/-- A whole interaction: the loop consuming a sequence of environment
events from a starting state. -/
def run (s : RState) (events : List REvent) : RState :=
  events.foldl stepEv s

/-- The state in which `processLink` starts on a candidate. -/
def initialRState (link : LinkInfo) : RState :=
  { link := link, phase := .needSuggestion }

/-! ### Lemmas about the extraction scan -/

theorem drop_length_takeWhile (p : Char → Bool) (l : Str) :
    l.drop (l.takeWhile p).length = l.dropWhile p := by
  induction l with
  | nil => simp
  | cons c rest ih =>
    by_cases h : p c
    · simp [List.takeWhile_cons, List.dropWhile_cons, h, ih]
    · simp [List.takeWhile_cons, List.dropWhile_cons, h]

theorem take_render (lab dsc tail : Str) :
    List.take (lab.length + dsc.length + 4)
      ('[' :: (lab ++ ']' :: '(' :: (dsc ++ ')' :: tail))) =
      '[' :: lab ++ ']' :: '(' :: dsc ++ [')'] := by
  have h1 : lab.length + dsc.length + 4 = (lab.length + (dsc.length + 3)) + 1 := by omega
  rw [h1, List.take_succ_cons, List.take_append]
  rw [show dsc.length + 3 = ((dsc.length + 1) + 1) + 1 from by omega]
  rw [List.take_succ_cons, List.take_succ_cons, List.take_append]
  simp

/-- A successful `matchLinkAt` has non-empty capture groups, and the
matched characters are exactly the rendered link of the two groups. -/
theorem matchLinkAt_spec {l lab dsc : Str}
    (h : matchLinkAt l = some (lab, dsc)) :
    lab ≠ [] ∧ dsc ≠ [] ∧
      l.take (lab.length + dsc.length + 4) =
        '[' :: lab ++ ']' :: '(' :: dsc ++ [')'] := by
  match l with
  | [] => simp [matchLinkAt] at h
  | c0 :: rest =>
    rw [matchLinkAt.eq_def] at h
    split at h
    next rest' heq =>
      injection heq with hc hr
      subst hc
      subst hr
      simp only at h
      split at h
      next => simp at h
      next hlab =>
        split at h
        next rest2 heq2 =>
          split at h
          next => simp at h
          next hdsc =>
            split at h
            next tail heq3 =>
              injection h with h'
              injection h' with hlabEq hdscEq
              have hdwe : rest.dropWhile (fun c => decide (c ≠ ']')) =
                  ']' :: '(' :: rest2 := by
                rw [← drop_length_takeWhile (fun c => decide (c ≠ ']')) rest]
                exact heq2
              have hrest : rest = lab ++ (']' :: '(' :: rest2) := by
                conv_lhs =>
                  rw [← List.takeWhile_append_dropWhile
                    (fun c => decide (c ≠ ']')) rest]
                rw [hdwe, hlabEq]
              have hdwe2 : rest2.dropWhile (fun c => decide (c ≠ ')')) =
                  ')' :: tail := by
                rw [← drop_length_takeWhile (fun c => decide (c ≠ ')')) rest2]
                exact heq3
              have hrest2 : rest2 = dsc ++ (')' :: tail) := by
                conv_lhs =>
                  rw [← List.takeWhile_append_dropWhile
                    (fun c => decide (c ≠ ')')) rest2]
                rw [hdwe2, hdscEq]
              rw [hlabEq] at hlab
              rw [hdscEq] at hdsc
              refine ⟨by simpa using hlab, by simpa using hdsc, ?_⟩
              rw [hrest2] at hrest
              rw [hrest]
              exact take_render lab dsc tail
            next => simp at h
        next => simp at h
    next => simp at h

/-- Every match reported by the scan lies at or after the scan position,
has non-empty capture groups, has length-consistent end position, and its
characters inside the scanned suffix are exactly the rendered link. -/
theorem findLinksAux_spec :
    ∀ (fuel : Nat) (l : Str) (pos : Nat) (m : Nat × Nat × Str × Str),
      m ∈ findLinksAux fuel l pos →
      pos ≤ m.1 ∧ m.2.2.1 ≠ [] ∧ m.2.2.2 ≠ [] ∧
        m.2.1 = m.1 + (m.2.2.1.length + m.2.2.2.length + 4) ∧
        (l.drop (m.1 - pos)).take (m.2.1 - m.1) =
          '[' :: m.2.2.1 ++ ']' :: '(' :: m.2.2.2 ++ [')'] := by
  intro fuel
  induction fuel with
  | zero => intro l pos m h; simp [findLinksAux] at h
  | succ fuel ih =>
    intro l pos m h
    cases l with
    | nil => simp [findLinksAux] at h
    | cons c rest =>
      rw [findLinksAux] at h
      cases hm : matchLinkAt (c :: rest) with
      | none =>
        rw [hm] at h
        obtain ⟨h0, h1, h2, h3, h4⟩ := ih rest (pos + 1) m h
        refine ⟨by omega, h1, h2, h3, ?_⟩
        rw [← h4]
        congr 1
        have hd : m.1 - pos = (m.1 - (pos + 1)) + 1 := by omega
        rw [hd, List.drop_succ_cons]
      | some p =>
        obtain ⟨lab, dsc⟩ := p
        rw [hm] at h
        simp only [List.mem_cons] at h
        rcases h with rfl | h
        · obtain ⟨h1, h2, h3⟩ := matchLinkAt_spec hm
          refine ⟨le_refl _, h1, h2, by simp, ?_⟩
          simpa using h3
        · obtain ⟨h0, h1, h2, h3, h4⟩ :=
            ih (rest.drop (lab.length + dsc.length + 4 - 1))
              (pos + (lab.length + dsc.length + 4)) m h
          refine ⟨by omega, h1, h2, h3, ?_⟩
          rw [← h4]
          congr 1
          rw [List.drop_drop]
          have hd : m.1 - pos = (lab.length + dsc.length + 4 - 1 +
              (m.1 - (pos + (lab.length + dsc.length + 4)))) + 1 := by omega
          rw [hd, List.drop_succ_cons]

/-- C10: every candidate returned by link extraction has a non-empty
label and a non-empty description, satisfies `StartPos < EndPos`, and the
substring of the original text at `[StartPos, EndPos)` is exactly the
rendered link `"[" + label + "](" + description + ")"` — the property the
patcher's length-delta arithmetic relies on. -/
theorem c10_extraction_well_formed (text : Str) (link : LinkInfo)
    (h : link ∈ extractLinks text) :
    link.text ≠ [] ∧ link.description ≠ [] ∧
      link.startPos < link.endPos ∧
      (text.drop link.startPos).take (link.endPos - link.startPos) =
        '[' :: link.text ++ ']' :: '(' :: link.description ++ [')'] := by
  unfold extractLinks at h
  obtain ⟨m, hm, rfl⟩ := List.mem_map.1 h
  obtain ⟨h0, h1, h2, h3, h4⟩ := findLinksAux_spec _ _ _ m hm
  have hlab : m.2.2.1.length ≥ 1 := List.length_pos.2 h1
  refine ⟨h1, h2, by simp only; omega, ?_⟩
  simpa using h4

/-- The document of the C10 witness. -/
def c10Doc : Str := str "See [X](my query)."

/-- The candidate the C10 witness instantiates the theorem at. -/
def c10Cand : LinkInfo := (extractLinks c10Doc).getD 0 default

/-- Witness for C10: the theorem instantiated at a concrete document and
its first extracted candidate. -/
theorem c10_extraction_well_formed_witness :
    c10Cand ∈ extractLinks c10Doc ∧
      (c10Cand.text ≠ [] ∧ c10Cand.description ≠ [] ∧
        c10Cand.startPos < c10Cand.endPos ∧
        (c10Doc.drop c10Cand.startPos).take
            (c10Cand.endPos - c10Cand.startPos) =
          '[' :: c10Cand.text ++ ']' :: '(' :: c10Cand.description ++ [')']) :=
  ⟨by decide, c10_extraction_well_formed c10Doc c10Cand (by decide)⟩

/-! ### C1 — the patcher on two settled candidates with length deltas -/

/-- A document with two adjacent placeholder links. -/
def c1Text : Str := str "[a](bb)[c](dd)"

/-- The extracted candidates, both settled on URLs two characters longer
than their descriptions (as the resolution loop does on acceptance). -/
def c1Links : List LinkInfo :=
  (extractLinks c1Text).map fun l =>
    if l.startPos = 0 then
      { l with url := str "u123", settled := true, confidence := 1 }
    else { l with url := str "u456", settled := true, confidence := 1 }

/-- C1 (code bug, evaluated): with two settled candidates whose
replacement URLs are longer than their descriptions, `applyChanges`
corrupts the document.  Processing runs right to left, so the prefix
before the later span is untouched and the left candidate's offsets are
already correct — yet the loop still shifts them by the length delta, and
the second replacement then splits the current text at the wrong
positions.  The output is not the document with each settled span
replaced in place, which the claim (and the code's own comments: the sort
is there "to avoid position shifts" and each replacement is meant to hit
"the specific instance at the known position") requires. -/
theorem c1_patcher_corrupts_left_spans :
    applyChanges c1Text c1Links = str "[a[a](u123)](u456)" ∧
      applyChanges c1Text c1Links ≠ str "[a](u123)[c](u456)" := by decide

/-! ### C5 — the already-a-URL short circuit of `ProcessFile` -/

/-- Document whose single candidate has a URL description. -/
def c5Doc : Str := str "See [Y](https://a.com/b)."

/-- Its extracted candidate. -/
def c5Cand : LinkInfo := (extractLinks c5Doc).getD 0 default

/-- C5 counterexample: the claim asserts the short-circuited candidate
gets `confidence = 1.0`; the code only assigns `URL` and `Settled`, so
the confidence keeps its extraction default 0. -/
theorem c5_confidence_not_one :
    isURL c5Cand.description = true ∧
      (processCandidate (fun l => l) c5Cand).confidence ≠ 1 := by decide

/-- C5 as amended: a candidate whose description starts with `http://`,
`https://` or `ftp://` is settled immediately with
`resolvedURL = description`, every other field — the confidence, still at
its extraction default 0, included — unchanged, and the resolution loop
is never invoked (the result does not depend on the resolver at all). -/
theorem c5_url_short_circuit (resolver : LinkInfo → LinkInfo)
    (link : LinkInfo) (h : isURL link.description = true) :
    processCandidate resolver link =
      { link with url := link.description, settled := true } := by
  unfold processCandidate
  rw [h]
  simp

/-- Witness for C5 at the concrete extracted candidate. -/
theorem c5_url_short_circuit_witness :
    isURL c5Cand.description = true ∧
      processCandidate (fun l => l) c5Cand =
        { c5Cand with url := c5Cand.description, settled := true } :=
  ⟨by decide, c5_url_short_circuit (fun l => l) c5Cand (by decide)⟩

/-! ### Shared fixtures for the resolution-loop claims -/

/-- A concrete unresolved candidate, as extraction produces it. -/
def demoCand : LinkInfo :=
  { text := str "X", description := str "my query", url := [],
    confidence := 0, sentence := str "See [X](my query).", startPos := 4,
    endPos := 17, settled := false, messages := [], rejectedURLs := [] }

/-- A well-formed service reply suggesting `http://x.com` at confidence
0.9. -/
def demoReply : Str := str "URL: http://x.com\nCONFIDENCE: 0.9\nREASONING: r"

/-- The start state of `processLink` on the demo candidate. -/
def demoStart : RState := initialRState demoCand

/-! ### C8 — the confidence floor of the plain `y` command -/

/-- C8: in the user-decision step, plain `y` settles the candidate on the
suggested URL if and only if the suggestion's confidence is at least 0.8;
below the floor nothing changes at all (the candidate stays unsettled and
the same decision state is kept). -/
theorem c8_confidence_floor (s : RState) (url : Str) (conf : ℚ)
    (reas line followUp : Str)
    (hph : s.phase = .decide url conf reas)
    (hset : s.link.settled = false)
    (hline : toLowerL (trimSpace line) = str "y") :
    ((stepEv s (.userInput line followUp)).link.settled = true ↔
        4/5 ≤ conf) ∧
      ((stepEv s (.userInput line followUp)).link.settled = true →
        (stepEv s (.userInput line followUp)).link.url = url) ∧
      (conf < 4/5 → stepEv s (.userInput line followUp) = s) := by
  obtain ⟨link, phase⟩ := s
  simp only at hph hset
  subst hph
  by_cases hc : (4 : ℚ)/5 ≤ conf
  · simp [stepEv, stepDecide, hline, hc]
  · simp [stepEv, stepDecide, hline, hc, hset]

/-- A concrete decision state: the demo candidate with the suggestion
`http://x.com` at confidence 0.9. -/
def c8State : RState :=
  { link := demoCand, phase := .decide (str "http://x.com") (9/10) (str "r") }

/-- Witness for C8 at a concrete decision state with confidence 0.9. -/
theorem c8_confidence_floor_witness :
    c8State.link.settled = false ∧
      toLowerL (trimSpace (str "y")) = str "y" ∧
      ((stepEv c8State (.userInput (str "y") [])).link.settled = true ↔
        4/5 ≤ (9 : ℚ)/10) :=
  ⟨by decide, by decide,
    (c8_confidence_floor c8State (str "http://x.com") (9/10) (str "r")
      (str "y") [] rfl (by decide) (by decide)).1⟩

/-- The seed-prompt rewrite touches only the transcript: all other
candidate fields are preserved. -/
theorem updateInitialPrompt_fields (l : LinkInfo) :
    (updateInitialPromptWithRejectedURL l).settled = l.settled ∧
      (updateInitialPromptWithRejectedURL l).url = l.url ∧
      (updateInitialPromptWithRejectedURL l).confidence = l.confidence ∧
      (updateInitialPromptWithRejectedURL l).rejectedURLs = l.rejectedURLs := by
  unfold updateInitialPromptWithRejectedURL
  split
  next => exact ⟨rfl, rfl, rfl, rfl⟩
  next m0 rest =>
    split
    next => exact ⟨rfl, rfl, rfl, rfl⟩
    next => exact ⟨rfl, rfl, rfl, rfl⟩

/-- C9 as amended: in the user-decision step an empty input line falls
into the default branch, which treats it as a request to add context —
the candidate stays unsettled with its URL and confidence unchanged and
the same suggestion is re-prompted, but the suggested URL is added to
rejectedURLs, the seed prompt is rewritten, and a transcript message is
appended exactly when the follow-up context prompt returns a non-empty
line. -/
theorem c9_empty_input_adds_rejection (s : RState) (url : Str) (conf : ℚ)
    (reas line followUp : Str)
    (hph : s.phase = .decide url conf reas)
    (hline : trimSpace line = []) :
    (stepEv s (.userInput line followUp)).link.settled = s.link.settled ∧
    (stepEv s (.userInput line followUp)).link.url = s.link.url ∧
    (stepEv s (.userInput line followUp)).link.confidence = s.link.confidence ∧
    (stepEv s (.userInput line followUp)).link.rejectedURLs =
      s.link.rejectedURLs ++ [url] ∧
    (stepEv s (.userInput line followUp)).phase = s.phase ∧
    (trimSpace followUp = [] →
      (stepEv s (.userInput line followUp)).link.messages =
        (updateInitialPromptWithRejectedURL
          { s.link with rejectedURLs :=
              s.link.rejectedURLs ++ [url] }).messages) ∧
    (trimSpace followUp ≠ [] →
      (stepEv s (.userInput line followUp)).link.messages.getLast? =
        some ⟨roleUser, contextMsg (trimSpace followUp)
          (s.link.rejectedURLs ++ [url])⟩) := by
  obtain ⟨link, phase⟩ := s
  simp only at hph
  subst hph
  have hfields := updateInitialPrompt_fields
    { link with rejectedURLs := link.rejectedURLs ++ [url] }
  have hny : ¬(([] : Str) = str "y") := by decide
  have hnv : ¬(([] : Str) = str "v") := by decide
  have hiu : isURL ([] : Str) = false := by decide
  by_cases hf : trimSpace followUp = []
  · simp [stepEv, stepDecide, hline, hf, toLowerL, hny, hnv, hiu, appendMsg,
      hfields.1, hfields.2.1, hfields.2.2.1, hfields.2.2.2]
  · simp [stepEv, stepDecide, hline, hf, toLowerL, hny, hnv, hiu, appendMsg,
      hfields.1, hfields.2.1, hfields.2.2.1, hfields.2.2.2]

/-- A reachable decision state: the demo candidate after one suggestion
that verified as accessible. -/
def c9State : RState :=
  run demoStart [.aiReply demoReply (9/10), .verifyResult (some 200)]

/-- C9 counterexample: at a reachable decision state, empty user input
does change state — the suggested URL is appended to rejectedURLs, so
"empty input causes a re-prompt with no state change" is false of the
code. -/
theorem c9_counterexample :
    c9State.phase = .decide (str "http://x.com") (9/10) (str "r") ∧
      (stepEv c9State (.userInput [] [])).link.rejectedURLs ≠
        c9State.link.rejectedURLs :=
  ⟨rfl, by decide⟩

/-- Witness for C9 as amended, at the reachable decision state. -/
theorem c9_empty_input_adds_rejection_witness :
    c9State.phase = .decide (str "http://x.com") (9/10) (str "r") ∧
      trimSpace [] = [] ∧
      (stepEv c9State (.userInput [] [])).link.rejectedURLs =
        c9State.link.rejectedURLs ++ [str "http://x.com"] :=
  ⟨rfl, rfl,
    (c9_empty_input_adds_rejection c9State (str "http://x.com") (9/10)
      (str "r") [] [] rfl rfl).2.2.2.1⟩

/-- A trace ending in a free-text context input: one suggestion, a
successful verification, then non-command non-URL user input. -/
def c2Trace : List REvent :=
  [.aiReply demoReply (9/10), .verifyResult (some 200),
   .userInput (str "try docs site") []]

/-- C2 (code bug, evaluated): on free-text context input the suggested
URL is added to rejectedURLs and the transcript message carrying the
context plus the rejection clause is appended — but control does not
return to step 1 of the loop.  The final `break` of the Go `switch`
statement leaves only the switch, not the inner prompt loop (despite the
comment "Break out of inner loop to get new AI suggestion" directly above
it), so the control location stays at the same decision prompt and no new
suggestion is requested before the user is prompted again. -/
theorem c2_context_does_not_return_to_step1 :
    (run demoStart c2Trace).link.rejectedURLs = [str "http://x.com"] ∧
      (run demoStart c2Trace).link.messages.getLast? =
        some ⟨roleUser, contextMsg (str "try docs site")
          [str "http://x.com"]⟩ ∧
      (run demoStart c2Trace).phase =
        .decide (str "http://x.com") (9/10) (str "r") :=
  ⟨by decide, by decide, rfl⟩

/-- C6 (code bug, evaluated): a reachable point where a URL that is a
member of rejectedURLs is presented to the user as the current
suggestion without any automatic asking-again transition — after the user
supplies context, the suggestion enters rejectedURLs but the inner prompt
loop re-prompts with that same suggestion (the `switch` `break` slip of
C2). -/
theorem c6_rejected_suggestion_still_presented :
    (run demoStart c2Trace).phase =
        .decide (str "http://x.com") (9/10) (str "r") ∧
      isURLRejected (str "http://x.com")
        (run demoStart c2Trace).link.rejectedURLs = true :=
  ⟨rfl, by decide⟩

/-! ### Invariant machinery: rejectedURLs and transcript evolution -/

theorem seedIfEmpty_rejected (l : LinkInfo) :
    (seedIfEmpty l).rejectedURLs = l.rejectedURLs := by
  unfold seedIfEmpty
  split <;> rfl

theorem appendMsg_rejected (l : LinkInfo) (r c : Str) :
    (appendMsg l r c).rejectedURLs = l.rejectedURLs := rfl

theorem stepSuggestion_rejected (link : LinkInfo) (content : Str)
    (conf : ℚ) :
    (stepSuggestion link content conf).link.rejectedURLs =
      link.rejectedURLs := by
  unfold stepSuggestion
  dsimp only
  split
  · simp [appendMsg_rejected, seedIfEmpty_rejected]
  · split <;> simp [appendMsg_rejected, seedIfEmpty_rejected]

theorem stepVerify_rejected (link : LinkInfo) (url : Str) (conf : ℚ)
    (reas : Str) (oc : Option Int) :
    link.rejectedURLs <+:
      (stepVerify link url conf reas oc).link.rejectedURLs := by
  unfold stepVerify
  dsimp only
  split
  · exact List.prefix_refl _
  · simp only [appendMsg_rejected,
      (updateInitialPrompt_fields _).2.2.2]
    exact List.prefix_append _ _

theorem stepDecide_rejected (link : LinkInfo) (url : Str) (conf : ℚ)
    (reas line followUp : Str) :
    link.rejectedURLs <+:
      (stepDecide link url conf reas line followUp).link.rejectedURLs := by
  unfold stepDecide
  dsimp only
  split
  · split <;> exact List.prefix_refl _
  · split
    · exact List.prefix_refl _
    · split
      · exact List.prefix_refl _
      · split
        · simp only [appendMsg_rejected,
            (updateInitialPrompt_fields _).2.2.2]
          exact List.prefix_append _ _
        · split
          · simp only [appendMsg_rejected,
              (updateInitialPrompt_fields _).2.2.2]
            exact List.prefix_append _ _
          · simp only [(updateInitialPrompt_fields _).2.2.2]
            exact List.prefix_append _ _

theorem stepEv_rejected (s : RState) (e : REvent) :
    s.link.rejectedURLs <+: (stepEv s e).link.rejectedURLs := by
  cases hp : s.phase <;> cases e <;> simp only [stepEv, hp] <;>
    try exact List.prefix_refl _
  case needSuggestion.aiCallError =>
    rw [seedIfEmpty_rejected]
  case needSuggestion.aiReply content conf =>
    rw [stepSuggestion_rejected]
  case retryPrompt.userInput line followUp =>
    split <;> exact List.prefix_refl _
  case awaitVerify.verifyResult url conf reas oc =>
    exact stepVerify_rejected _ _ _ _ _
  case decide.userInput url conf reas line followUp =>
    exact stepDecide_rejected _ _ _ _ _ _

/-- C3 amended: across any sequence of resolution-loop events the
rejectedURLs collection never shrinks and is never cleared — the list at
any earlier point stays a prefix of the list at any later point. -/
theorem c3_rejected_monotone (s : RState) (events : List REvent) :
    s.link.rejectedURLs <+: (run s events).link.rejectedURLs := by
  induction events generalizing s with
  | nil => exact List.prefix_refl _
  | cons e es ih => exact (stepEv_rejected s e).trans (ih (stepEv s e))

def c3Trace : List REvent :=
  [.aiReply demoReply (9/10), .verifyResult (some 200),
   .userInput (str "ctx1") [], .userInput (str "ctx2") []]

/-- C3 counterexample: after a suggestion and two rounds of free-text
context for that same suggestion, the suggested URL appears twice in
rejectedURLs — the collection does contain the same URL twice. -/
theorem c3_duplicate_rejection :
    (run demoStart c3Trace).link.rejectedURLs =
        [str "http://x.com", str "http://x.com"] ∧
      ¬ (run demoStart c3Trace).link.rejectedURLs.Nodup := by decide

/-- How one operation may change the transcript: it never shrinks, and
everything after the first message is preserved (extended only at the
end). -/
def MsgsExtend (old new : List ChatMessage) : Prop :=
  old.length ≤ new.length ∧ old.tail <+: new.tail

theorem MsgsExtend.refl (l : List ChatMessage) : MsgsExtend l l :=
  ⟨le_refl _, List.prefix_refl _⟩

theorem MsgsExtend.trans {a b c : List ChatMessage}
    (h1 : MsgsExtend a b) (h2 : MsgsExtend b c) : MsgsExtend a c :=
  ⟨h1.1.trans h2.1, h1.2.trans h2.2⟩

theorem msgsExtend_append (l : List ChatMessage) (m : ChatMessage) :
    MsgsExtend l (l ++ [m]) := by
  constructor
  · simp
  · cases l with
    | nil => simp
    | cons x xs => simp [List.prefix_append]

theorem seedIfEmpty_msgs (l : LinkInfo) :
    MsgsExtend l.messages (seedIfEmpty l).messages := by
  unfold seedIfEmpty
  split
  next h =>
    have : l.messages = [] := by simpa using h
    rw [this]
    exact ⟨by simp, by simp⟩
  next => exact MsgsExtend.refl _

theorem appendMsg_msgs (l : LinkInfo) (r c : Str) :
    MsgsExtend l.messages (appendMsg l r c).messages :=
  msgsExtend_append _ _

theorem updateInitialPrompt_msgs (l : LinkInfo) :
    MsgsExtend l.messages (updateInitialPromptWithRejectedURL l).messages := by
  unfold updateInitialPromptWithRejectedURL
  split
  next => exact MsgsExtend.refl _
  next m0 rest heq =>
    split
    next =>
      rw [heq]
      exact ⟨by simp, List.prefix_refl _⟩
    next => exact MsgsExtend.refl _

theorem stepSuggestion_msgs (link : LinkInfo) (content : Str) (conf : ℚ) :
    MsgsExtend link.messages
      (stepSuggestion link content conf).link.messages := by
  have h1 : MsgsExtend link.messages
      (appendMsg (seedIfEmpty link) roleAssistant content).messages :=
    (seedIfEmpty_msgs link).trans (appendMsg_msgs _ _ _)
  unfold stepSuggestion
  dsimp only
  split
  · exact h1
  · split
    · exact h1.trans (appendMsg_msgs _ _ _)
    · exact h1

theorem stepVerify_msgs (link : LinkInfo) (url : Str) (conf : ℚ)
    (reas : Str) (oc : Option Int) :
    MsgsExtend link.messages
      (stepVerify link url conf reas oc).link.messages := by
  unfold stepVerify
  dsimp only
  split
  · exact MsgsExtend.refl _
  · exact (updateInitialPrompt_msgs
      { link with rejectedURLs := link.rejectedURLs ++ [url] }).trans
      (appendMsg_msgs _ _ _)

theorem stepDecide_msgs (link : LinkInfo) (url : Str) (conf : ℚ)
    (reas line followUp : Str) :
    MsgsExtend link.messages
      (stepDecide link url conf reas line followUp).link.messages := by
  have hupd : MsgsExtend link.messages
      (updateInitialPromptWithRejectedURL
        { link with rejectedURLs := link.rejectedURLs ++ [url] }).messages :=
    updateInitialPrompt_msgs
      { link with rejectedURLs := link.rejectedURLs ++ [url] }
  unfold stepDecide
  dsimp only
  split
  · split <;> exact MsgsExtend.refl _
  · split
    · exact MsgsExtend.refl _
    · split
      · exact MsgsExtend.refl _
      · split
        · exact hupd.trans (appendMsg_msgs _ _ _)
        · split
          · exact hupd.trans (appendMsg_msgs _ _ _)
          · exact hupd

theorem stepEv_msgs (s : RState) (e : REvent) :
    MsgsExtend s.link.messages (stepEv s e).link.messages := by
  cases hp : s.phase <;> cases e <;> simp only [stepEv, hp] <;>
    try exact MsgsExtend.refl _
  case needSuggestion.aiCallError =>
    exact seedIfEmpty_msgs _
  case needSuggestion.aiReply content conf =>
    exact stepSuggestion_msgs _ _ _
  case retryPrompt.userInput line followUp =>
    split <;> exact MsgsExtend.refl _
  case awaitVerify.verifyResult url conf reas oc =>
    exact stepVerify_msgs _ _ _ _ _
  case decide.userInput url conf reas line followUp =>
    exact stepDecide_msgs _ _ _ _ _ _

/-- C4 amended: across any events the transcript never shrinks — its
length is non-decreasing and every message after the first is preserved
(the tail only grows by appending); only the first (seed) message's
content may be rewritten in place by the rejected-URLs clause update. -/
theorem c4_transcript_never_truncated (s : RState) (events : List REvent) :
    s.link.messages.length ≤ (run s events).link.messages.length ∧
      s.link.messages.tail <+: (run s events).link.messages.tail := by
  induction events generalizing s with
  | nil => exact MsgsExtend.refl _
  | cons e es ih => exact (stepEv_msgs s e).trans (ih (stepEv s e))

def c4Trace : List REvent := [.aiReply demoReply (9/10), .verifyResult (some 200)]

set_option maxRecDepth 4096 in
/-- C4 counterexample: one further event (free-text context) rewrites the
seed message's content in place, so the earlier transcript is not a
prefix of the later one — the transcript does not evolve by appending
alone. -/
theorem c4_seed_rewritten_in_place :
    ((run demoStart (c4Trace ++ [.userInput (str "ctx1") []])).link.messages.take
        (run demoStart c4Trace).link.messages.length) ≠
      (run demoStart c4Trace).link.messages := by decide

/-- No occurrence of the clause head starts strictly inside `base` when
`tail` follows it (scanning every suffix of `base ++ tail` that begins in
`base`). -/
def noEarlyPat : Str → Str → Bool
  | [], _ => true
  | c :: rest, tail =>
    (!rejClauseHead.isPrefixOf (c :: (rest ++ tail))) && noEarlyPat rest tail

theorem isPrefixOf_self_append (l t : Str) : l.isPrefixOf (l ++ t) = true := by
  induction l with
  | nil => simp [List.isPrefixOf]
  | cons c cs ih => simp [List.isPrefixOf, ih]

theorem containsSub_mid (m x y : Str) : containsSub m (x ++ (m ++ y)) = true := by
  induction x with
  | nil =>
    cases m with
    | nil => cases y <;> simp [containsSub]
    | cons c ms =>
      have h := isPrefixOf_self_append (c :: ms) y
      simp only [List.cons_append] at h
      simp [containsSub, h]
  | cons x0 xs ih =>
    simp [containsSub, ih]

/-- The one step of `regexp.ReplaceAllString` the seed-prompt rewrite
relies on: when the scanned text is a clause-free prefix, then the clause
head, then newline-free text, the whole clause (head plus following run)
is replaced — once, without duplication. -/
theorem replaceClauseAux_spec (rep u : Str)
    (hu : ∀ c ∈ u, c ≠ '\n') :
    ∀ (base : Str) (fuel : Nat),
      (base ++ (rejClauseHead ++ u)).length ≤ fuel →
      noEarlyPat base (rejClauseHead ++ u) = true →
      replaceClauseAux rep fuel (base ++ (rejClauseHead ++ u)) =
        base ++ rep := by
  have hHne : rejClauseHead ≠ [] := by decide
  intro base
  induction base with
  | nil =>
    intro fuel hfuel _
    simp only [List.nil_append] at hfuel ⊢
    obtain ⟨c, hs, hH⟩ : ∃ c hs, rejClauseHead = c :: hs := by
      cases hHv : rejClauseHead with
      | nil => exact absurd hHv hHne
      | cons c hs => exact ⟨c, hs, rfl⟩
    cases fuel with
    | zero =>
      exfalso
      rw [hH] at hfuel
      simp at hfuel
    | succ f =>
      rw [hH]
      show replaceClauseAux rep (f + 1) (c :: (hs ++ u)) = rep
      rw [replaceClauseAux]
      have hpre : rejClauseHead.isPrefixOf (c :: (hs ++ u)) = true := by
        rw [hH]
        exact isPrefixOf_self_append (c :: hs) u
      rw [if_pos hpre]
      have hdrop : (c :: (hs ++ u)).drop rejClauseHead.length = u := by
        have h := List.drop_left (c :: hs) u
        rw [hH]
        simp only [List.cons_append] at h
        exact h
      rw [hdrop]
      have hdw : u.dropWhile (fun x => x ≠ '\n') = [] := by
        rw [List.dropWhile_eq_nil_iff]
        intro x hx
        simp [hu x hx]
      rw [hdw]
      cases f <;> simp [replaceClauseAux]
  | cons b bs ih =>
    intro fuel hfuel hne
    rw [noEarlyPat, Bool.and_eq_true] at hne
    cases fuel with
    | zero => simp at hfuel
    | succ f =>
      show replaceClauseAux rep (f + 1) (b :: (bs ++ (rejClauseHead ++ u))) =
        b :: (bs ++ rep)
      rw [replaceClauseAux]
      have hpre : rejClauseHead.isPrefixOf
          (b :: (bs ++ (rejClauseHead ++ u))) = false := by
        have h1 := hne.1
        rwa [Bool.not_eq_true'] at h1
      rw [if_neg (by rw [hpre]; exact Bool.false_ne_true)]
      have hlen : (bs ++ (rejClauseHead ++ u)).length ≤ f := by
        have : (b :: (bs ++ (rejClauseHead ++ u))).length ≤ f + 1 := hfuel
        simp only [List.length_cons] at this
        omega
      rw [ih f hlen hne.2]

/-- The seed-prompt rewrite on a seed of the canonical shape (a
clause-free base, the clause head, newline-free clause text): the
rejected-URLs clause is replaced via the pattern match — rebuilt from the
current rejected list, never duplicated. -/
theorem updateInitialPrompt_replaces (l : LinkInfo) (base u : Str)
    (rest : List ChatMessage)
    (hm : l.messages = ⟨roleUser, base ++ (rejClauseHead ++ u)⟩ :: rest)
    (hu : ∀ c ∈ u, c ≠ '\n')
    (hne : noEarlyPat base (rejClauseHead ++ u) = true) :
    (updateInitialPromptWithRejectedURL l).messages =
      ⟨roleUser, base ++ rejClause l.rejectedURLs⟩ :: rest := by
  have hcont : containsSub rejMarker (base ++ (rejClauseHead ++ u)) = true := by
    have h := containsSub_mid rejMarker (base ++ ['\n', '\n']) ([' '] ++ u)
    have hd : base ++ (rejClauseHead ++ u) =
        (base ++ ['\n', '\n']) ++ (rejMarker ++ ([' '] ++ u)) := by
      have hH : rejClauseHead = ['\n', '\n'] ++ rejMarker ++ [' '] := by decide
      rw [hH]
      simp
    rw [hd]
    exact h
  unfold updateInitialPromptWithRejectedURL
  rw [hm]
  simp only [hcont, if_pos rfl, if_true]
  rw [replaceClauseAux_spec (rejClause l.rejectedURLs) u hu base
    (base ++ (rejClauseHead ++ u)).length (le_refl _) hne]

/-- C7: a verification probe reporting a non-2xx/3xx status or a
transport failure (unreachable with status 0) causes the URL to be added
to rejectedURLs, the seed prompt's rejected-URL clause to be rewritten —
replaced via the pattern match, not duplicated — a transcript message
citing the failing status to be appended, and a new suggestion round to
start automatically, without user involvement. -/
theorem c7_verification_failure (s : RState) (url : Str) (conf : ℚ)
    (reas : Str) (oc : Option Int) (base u : Str) (rest : List ChatMessage)
    (hph : s.phase = .awaitVerify url conf reas)
    (hfail : (verifyURL oc).1 = false)
    (hm : s.link.messages = ⟨roleUser, base ++ (rejClauseHead ++ u)⟩ :: rest)
    (hu : ∀ c ∈ u, c ≠ '\n')
    (hne : noEarlyPat base (rejClauseHead ++ u) = true) :
    (stepEv s (.verifyResult oc)).link.rejectedURLs =
        s.link.rejectedURLs ++ [url] ∧
      (stepEv s (.verifyResult oc)).phase = .needSuggestion ∧
      (stepEv s (.verifyResult oc)).link.messages =
        ⟨roleUser, base ++ rejClause (s.link.rejectedURLs ++ [url])⟩ ::
          (rest ++ [⟨roleUser, notAccessibleMsg url (verifyURL oc).2
            (s.link.rejectedURLs ++ [url])⟩]) := by
  obtain ⟨link, phase⟩ := s
  simp only at hph hm
  subst hph
  simp only [stepEv]
  unfold stepVerify
  dsimp only
  rw [if_neg (by rw [hfail]; exact Bool.false_ne_true)]
  have hfields := updateInitialPrompt_fields
    { link with rejectedURLs := link.rejectedURLs ++ [url] }
  have hmsgs := updateInitialPrompt_replaces
    { link with rejectedURLs := link.rejectedURLs ++ [url] } base u rest
    hm hu hne
  refine ⟨?_, rfl, ?_⟩
  · simp [appendMsg, hfields.2.2.2]
  · simp only [appendMsg, hmsgs, hfields.2.2.2]
    simp

/-- The concrete state of the C7 witness: the demo candidate after one
rejected URL, its seed message carrying the canonical clause shape, at
the verification point of a fresh suggestion. -/
def c7State : RState :=
  { link := { demoCand with
      messages := [⟨roleUser,
        basePrompt demoCand.sentence demoCand.description ++
          (rejClauseHead ++ str "http://a.com")⟩],
      rejectedURLs := [str "http://a.com"] },
    phase := .awaitVerify (str "http://b.com") (9/10) (str "r") }

set_option maxRecDepth 8192 in
/-- Witness for C7: the theorem applied at the concrete state, on a 404
probe result. -/
theorem c7_verification_failure_witness :
    (verifyURL (some 404)).1 = false ∧
      (stepEv c7State (.verifyResult (some 404))).link.rejectedURLs =
        c7State.link.rejectedURLs ++ [str "http://b.com"] ∧
      (stepEv c7State (.verifyResult (some 404))).phase = .needSuggestion :=
  ⟨by decide,
    (c7_verification_failure c7State (str "http://b.com") (9/10) (str "r")
      (some 404) (basePrompt demoCand.sentence demoCand.description)
      (str "http://a.com") [] rfl (by decide) rfl (by decide) (by decide)).1,
    (c7_verification_failure c7State (str "http://b.com") (9/10) (str "r")
      (some 404) (basePrompt demoCand.sentence demoCand.description)
      (str "http://a.com") [] rfl (by decide) rfl (by decide) (by decide)).2.1⟩

end LinkSummoner
